/-
Verification of the Flash-Chatbot retrieval subsystem (RAG pipeline).

Shallow embedding of:
  - src/rag/document_processor.py  (DocumentProcessor: extraction + chunking)
  - src/rag/retriever.py           (FAISSRetriever / SimpleRetriever)
  - src/rag/embedder.py            (Embedder)
  - src/services/chat_service.py   (ChatService.stream_message_with_rag prompt logic)

Python strings are modelled as `List Char`, Python ints as `Int` (or `Nat`
where the source only ever holds non-negative values), numpy float vectors as
`List Int` (exact arithmetic stands in for floats: every claim below is about
counts, ordering and structural equality, not about rounding), and raised
exceptions as `Except`/`Option` results.  External libraries (faiss, numpy
argsort, pypdf, chardet, the sentence-transformers model) are modelled by
explicit Lean functions or by abstract function-valued parameters, each with a
doc comment saying what library behaviour it models.
-/
import Mathlib

set_option linter.unusedVariables false

/-! ## Python primitives on `List Char` -/

/-- Python `str.strip()` restricted to ASCII whitespace: the whitespace
characters Python strips from chatbot text (space, tab, newline, carriage
return, vertical tab, form feed). -/
def pyIsSpace (c : Char) : Bool :=
  c = ' ' ∨ c = '\t' ∨ c = '\n' ∨ c = '\r' ∨ c = '\x0b' ∨ c = '\x0c'

/-- Python `text.strip()`. -/
def pyStrip (text : List Char) : List Char :=
  ((text.dropWhile pyIsSpace).reverse.dropWhile pyIsSpace).reverse

/-- Python `text[a:b]` for `0 ≤ a ≤ b` (the only shape the chunker uses). -/
def pySlice (text : List Char) (a b : Nat) : List Char :=
  (text.take b).drop a

/-- Python `text.rfind(" ", a, b)`: the largest index `j` with
`a ≤ j < min b (len text)` and `text[j] = ' '`; `none` models the `-1`
return. -/
def pyRfindSpace (text : List Char) (a b : Nat) : Option Nat :=
  ((List.range (min b text.length)).filter
    (fun j => a ≤ j ∧ text.getD j '\x00' = ' ')).getLast?

/-! ## DocumentProcessor (src/rag/document_processor.py) -/

/-- `DocumentProcessor`: chunking configuration stored by `__init__`. -/
structure DocumentProcessor where
  chunk_size : Int
  chunk_overlap : Int
deriving Repr, DecidableEq

/-- `DocumentProcessor.__init__` (document_processor.py:20-35): validates
`chunk_overlap < chunk_size`, raising `ValueError` (modelled as `.error` with
the formatted message) otherwise, and stores both parameters. -/
def DocumentProcessor.init (chunk_size chunk_overlap : Int) :
    Except String DocumentProcessor :=
  if chunk_overlap ≥ chunk_size then
    .error ("chunk_overlap (" ++ toString chunk_overlap ++
      ") must be < chunk_size (" ++ toString chunk_size ++ ")")
  else
    .ok ⟨chunk_size, chunk_overlap⟩

/-- The characters the chunker treats as natural boundaries
(document_processor.py:129). -/
def boundaryChars : List Char := [' ', '\n', '.', '!', '?']

/-- Loop state of the `while start < text_len` loop in `_chunk_text`
(document_processor.py:125-138): the accumulated chunk list and the `start`
offset.  `end` is recomputed from `start` at the top of every iteration, so it
is not loop-carried state. -/
structure ChunkState where
  chunks : List (List Char)
  start : Nat
deriving Repr, DecidableEq

/-- One iteration of the `while` loop body of `_chunk_text`
(document_processor.py:126-138), exactly as indented in the source: the body
computes `end`, optionally walks back to the last space, strips and appends
the chunk — and does NOT update `start` (the `# Move start position with
overlap` block at lines 140-150 is dedented outside the loop). -/
def chunkStep (chunk_size : Nat) (text : List Char) (s : ChunkState) :
    ChunkState :=
  let textLen := text.length
  let e0 := min (s.start + chunk_size) textLen
  let e1 :=
    if e0 < textLen ∧ ¬ (text.getD e0 '\x00' ∈ boundaryChars) then
      match pyRfindSpace text s.start e0 with
      | some j => j
      | none => e0
    else e0
  let chunk := pyStrip (pySlice text s.start e1)
  if chunk ≠ [] then ⟨s.chunks ++ [chunk], s.start⟩ else ⟨s.chunks, s.start⟩

/-- The `while start < text_len` loop of `_chunk_text`
(document_processor.py:125), run with `fuel` iterations of budget; `none`
means the loop has not exited after `fuel` iterations. -/
def chunkLoop (chunk_size : Nat) (text : List Char) :
    Nat → ChunkState → Option ChunkState
  | 0, s => if s.start < text.length then none else some s
  | fuel + 1, s =>
      if s.start < text.length then
        chunkLoop chunk_size text fuel (chunkStep chunk_size text s)
      else
        some s

/-- `_chunk_text` (document_processor.py:110-152) with a fuel bound on the
loop: `none` when the loop is still running after `fuel` iterations.  The
dedented block after the loop only assigns `start`, which is dead after the
loop, so the return value is the accumulated chunk list.  (On empty input the
source would additionally hit an unbound `end` after the loop; `process` never
calls it on empty text.) -/
def chunkTextFuel (chunk_size : Nat) (text : List Char) (fuel : Nat) :
    Option (List (List Char)) :=
  (chunkLoop chunk_size text fuel ⟨[], 0⟩).map ChunkState.chunks

/-! ### Chunk-loop lemmas -/

theorem chunkStep_start (chunk_size : Nat) (text : List Char)
    (s : ChunkState) : (chunkStep chunk_size text s).start = s.start := by
  unfold chunkStep
  dsimp only
  split <;> split <;> rfl

theorem chunkLoop_stuck (chunk_size : Nat) (text : List Char) :
    ∀ (fuel : Nat) (s : ChunkState), s.start < text.length →
      chunkLoop chunk_size text fuel s = none := by
  intro fuel
  induction fuel with
  | zero =>
      intro s hs
      simp [chunkLoop, hs]
  | succ n ih =>
      intro s hs
      simp only [chunkLoop, if_pos hs]
      exact ih _ (by rw [chunkStep_start]; exact hs)

/-- C1: For every text string and every `DocumentProcessor` constructed with
`chunk_overlap < chunk_size`, the chunking loop in `_chunk_text` terminates —
in the worst case within `ceil(len(text) / 1)` iterations — and returns a
finite list of chunks.

REFUTED — the `# Move start position with overlap` block
(document_processor.py:140-150) is dedented outside the `while` loop, so no
iteration ever changes `start`; on the non-empty text `"ab"` with the valid
configuration from the spec: `chunk_size = 512`, `chunk_overlap = 50` the loop has
not exited after ANY number of iterations (in particular not after
`ceil(2/1) = 2`). -/
theorem chunk_text_nonterminating :
    ∀ fuel : Nat, chunkLoop 512 ("ab".toList) fuel ⟨[], 0⟩ = none := by
  intro fuel
  exact chunkLoop_stuck 512 ("ab".toList) fuel ⟨[], 0⟩ (by decide)

/-- C9: Constructing a `DocumentProcessor` with `chunk_overlap >= chunk_size`
raises a configuration error (`ValueError`) at construction time, before any
document is processed; with `chunk_overlap < chunk_size` construction succeeds
and stores both parameters. -/
theorem documentProcessor_init_validates (chunk_size chunk_overlap : Int) :
    (chunk_overlap ≥ chunk_size →
      DocumentProcessor.init chunk_size chunk_overlap =
        .error ("chunk_overlap (" ++ toString chunk_overlap ++
          ") must be < chunk_size (" ++ toString chunk_size ++ ")")) ∧
    (chunk_overlap < chunk_size →
      DocumentProcessor.init chunk_size chunk_overlap =
        .ok ⟨chunk_size, chunk_overlap⟩) := by
  constructor
  · intro h
    simp [DocumentProcessor.init, h]
  · intro h
    simp [DocumentProcessor.init, not_le.mpr h]

theorem documentProcessor_init_validates_witness :
    ((512 : Int) ≤ 600 ∧
      DocumentProcessor.init 512 600 =
        .error "chunk_overlap (600) must be < chunk_size (512)") ∧
    ((50 : Int) < 512 ∧
      DocumentProcessor.init 512 50 = .ok ⟨512, 50⟩) :=
  ⟨⟨by decide, (documentProcessor_init_validates 512 600).1 (by decide)⟩,
   ⟨by decide, (documentProcessor_init_validates 512 50).2 (by decide)⟩⟩

/-! ## Embedder (src/rag/embedder.py) -/

/-- The `Embedder` (embedder.py:11-93) after its lazy model load has
succeeded (primary or fallback): `dimension` is the output
width of the loaded model, `embedFn` models `model.encode(text, normalize_embeddings=True)` for a
document, `embedQueryFn` models the query-side `model.encode` (with the
query prompt on the primary model).  Vector components are exact integers
standing in for floats. -/
structure Embedder where
  dimension : Nat
  embedFn : String → List Int
  embedQueryFn : String → List Int

/-- A numpy 2-d float array: its rows and its second shape component. -/
structure NpMatrix where
  rows : List (List Int)
  ncols : Nat
deriving Repr, DecidableEq

/-- `Embedder.embed_documents` (embedder.py:55-71): on an empty input list
returns `np.array([]).reshape(0, self.dimension)`, i.e. a matrix of shape
`(0, dimension)`; otherwise returns `model.encode(texts, ...)`, one row per
text in order (shape `(n, row width)`). -/
def Embedder.embed_documents (e : Embedder) (texts : List String) : NpMatrix :=
  if texts = [] then ⟨[], e.dimension⟩
  else
    let rows := texts.map e.embedFn
    ⟨rows, (rows.headD []).length⟩

/-! ## Retrievers (src/rag/retriever.py) -/

/-- Open string-keyed metadata mapping of a `Document`. -/
abbrev MetaMap := List (String × String)

/-- `Document` (retriever.py:10-15). -/
structure Document where
  text : String
  metadata : MetaMap
deriving Repr, DecidableEq

/-- The per-document metadata lookup in `add_documents`
(retriever.py:117,199): `metadata[i] if metadata and i < len(metadata) else
{}` — `metadata` may be absent (`none`) or empty (falsy), and an index past
its end yields the empty mapping. -/
def pyMetaAt (metadata : Option (List MetaMap)) (i : Nat) : MetaMap :=
  match metadata with
  | some ms => if i < ms.length then ms.getD i [] else []
  | none => []

/-- The `for i, text in enumerate(texts)` document-construction loop shared
by both `add_documents` implementations (retriever.py:116-118,198-200). -/
def newDocs (texts : List String) (metadata : Option (List MetaMap)) :
    List Document :=
  texts.enum.map (fun p => ⟨p.2, pyMetaAt metadata p.1⟩)

/-- Inner product of two vectors (`np.dot` of rows of equal length; faiss
`IndexFlatIP` scoring). -/
def dot (v w : List Int) : Int :=
  ((v.zip w).map (fun p => p.1 * p.2)).sum

/-- `FAISSRetriever` state (retriever.py:73-84): the document store and the
faiss index, `none` before `_init_index` has run; `some vecs` models an
`IndexFlatIP` holding the rows `vecs` (`ntotal = vecs.length`). -/
structure FAISSRetriever where
  documents : List Document
  index : Option (List (List Int))
deriving Repr, DecidableEq

/-- A freshly constructed `FAISSRetriever` (retriever.py:76-84). -/
def FAISSRetriever.init : FAISSRetriever := ⟨[], none⟩

/-- The `ntotal` of the index (0 for an uninitialized index). -/
def FAISSRetriever.ntotal (r : FAISSRetriever) : Nat :=
  (r.index.getD []).length

/-- `FAISSRetriever.add_documents` (retriever.py:95-118): no-op on an empty
list; otherwise embeds all texts in one batch, lazily initializes the index,
appends the embedding rows to it, and appends one `Document` per text. -/
def FAISSRetriever.add_documents (e : Embedder) (r : FAISSRetriever)
    (texts : List String) (metadata : Option (List MetaMap)) :
    FAISSRetriever :=
  if texts = [] then r
  else
    let embeddings := texts.map e.embedFn
    ⟨r.documents ++ newDocs texts metadata,
     some ((r.index.getD []) ++ embeddings)⟩

/-- `FAISSRetriever.clear` (retriever.py:147-150). -/
def FAISSRetriever.clear (r : FAISSRetriever) : FAISSRetriever := ⟨[], none⟩

/-- Strict-preference order used to model the exact inner-product search of faiss
over the score list `sims`: higher score first, ties broken by lower row id
(faiss returns equal-scoring flat-index hits in id order). -/
def faissLt (sims : List Int) (i j : Nat) : Prop :=
  sims.getD j 0 < sims.getD i 0 ∨ (sims.getD i 0 = sims.getD j 0 ∧ i ≤ j)

instance (sims : List Int) : DecidableRel (faissLt sims) := fun i j =>
  inferInstanceAs (Decidable (_ ∨ _ ∧ _))

/-- Models `faiss.IndexFlatIP.search(q, n)` on an index holding rows `vecs`.
`IndexFlat::search` begins with its `k > 0` assertion, so a call with
`n = 0` raises a `RuntimeError` — modelled by `none`.  Otherwise: exhaustive
inner-product scoring, then the best `n` results as `(score, id)` pairs
sorted by descending score (ties by ascending id).  Ids are `Int` because
faiss pads short result rows with `-1`; with `n ≤ ntotal` (the only way the
repository calls it) no padding occurs. -/
def faissSearch (vecs : List (List Int)) (q : List Int) (n : Nat) :
    Option (List (Int × Int)) :=
  if n = 0 then none
  else
    let sims := vecs.map (fun v => dot v q)
    let order := List.insertionSort (faissLt sims) (List.range vecs.length)
    some ((order.take n).map (fun i => (sims.getD i 0, (i : Int))))

/-- `FAISSRetriever.retrieve` (retriever.py:120-145): empty result on an
uninitialized or empty index (before any faiss call); otherwise embeds the
query once, searches for `min(k, ntotal)` hits and keeps those with a valid
id.  The overall `none` models the exception that escapes `retrieve` when
`index.search` raises (which happens exactly when `min(k, ntotal) = 0`,
i.e. `k = 0` on a non-empty index); `some rs` is a normal return of `rs`. -/
def FAISSRetriever.retrieve (e : Embedder) (r : FAISSRetriever)
    (query : String) (k : Nat) : Option (List (Document × Int)) :=
  match r.index with
  | none => some []
  | some vecs =>
    if vecs.length = 0 then some []
    else
      let q := e.embedQueryFn query
      match faissSearch vecs q (min k vecs.length) with
      | none => none
      | some res =>
        some (res.filterMap (fun p =>
          if p.2 ≠ -1 ∧ p.2 < (r.documents.length : Int) then
            some (r.documents.getD p.2.toNat ⟨"", []⟩, p.1)
          else none))

/-- `SimpleRetriever` state (retriever.py:163-172): document store, the
`SimpleMockIndex.ntotal` counter, and the stacked embedding matrix (`none`
before the first non-empty `add_documents`). -/
structure SimpleRetriever where
  documents : List Document
  ntotal : Nat
  embeddings : Option (List (List Int))
deriving Repr, DecidableEq

/-- A freshly constructed `SimpleRetriever` (retriever.py:166-172). -/
def SimpleRetriever.init : SimpleRetriever := ⟨[], 0, none⟩

/-- `SimpleRetriever.add_documents` (retriever.py:178-203): no-op on an empty
list; otherwise embeds all texts, `np.vstack`s the rows onto the matrix,
appends one `Document` per text and sets `ntotal = len(documents)`. -/
def SimpleRetriever.add_documents (e : Embedder) (r : SimpleRetriever)
    (texts : List String) (metadata : Option (List MetaMap)) :
    SimpleRetriever :=
  if texts = [] then r
  else
    let embeddings := texts.map e.embedFn
    let newEmb :=
      match r.embeddings with
      | none => embeddings
      | some m => m ++ embeddings
    let docs := r.documents ++ newDocs texts metadata
    ⟨docs, docs.length, some newEmb⟩

/-- `SimpleRetriever.clear` (retriever.py:235-239). -/
def SimpleRetriever.clear (r : SimpleRetriever) : SimpleRetriever :=
  ⟨[], 0, none⟩

/-- Non-strict order used to model `np.argsort(xs)` (ascending): lower value
first, ties broken by lower index — a stable argsort, the order the numpy
insertion sort produces on the short arrays this application handles. -/
def argsortLe (xs : List Int) (i j : Nat) : Prop :=
  xs.getD i 0 < xs.getD j 0 ∨ (xs.getD i 0 = xs.getD j 0 ∧ i ≤ j)

instance (xs : List Int) : DecidableRel (argsortLe xs) := fun i j =>
  inferInstanceAs (Decidable (_ ∨ _ ∧ _))

/-- Models `np.argsort(xs)`: the permutation of `0..len-1` along which `xs`
is ascending. -/
def argsort (xs : List Int) : List Nat :=
  List.insertionSort (argsortLe xs) (List.range xs.length)

/-- Python `arr[-k:]` for a non-negative `k`: the last `k` elements — except
that `arr[-0:]` is `arr[0:]`, the WHOLE array (the numpy slicing corner the
`retrieve` top-k code hits at `k = 0`). -/
def pySliceLastK {α : Type} (l : List α) (k : Nat) : List α :=
  if k = 0 then l else l.drop (l.length - k)

/-- `SimpleRetriever.retrieve` (retriever.py:205-233): empty result when the
matrix is unset or no documents are stored; otherwise embeds the query,
scores every row by dot product, takes `np.argsort(sims)[-k:][::-1]` with
`k = min(k, len(documents))` and maps the surviving indices to
`(Document, score)` pairs. -/
def SimpleRetriever.retrieve (e : Embedder) (r : SimpleRetriever)
    (query : String) (k : Nat) : List (Document × Int) :=
  match r.embeddings with
  | none => []
  | some vecs =>
    if r.documents.length = 0 then []
    else
      let q := e.embedQueryFn query
      let sims := vecs.map (fun v => dot v q)
      let kk := min k r.documents.length
      let top := (pySliceLastK (argsort sims) kk).reverse
      top.map (fun idx => (r.documents.getD idx ⟨"", []⟩, sims.getD idx 0))

/-! ## Operation sequences over a retriever -/

/-- One mutating call on a retriever: `add_documents(texts, metadata)` or
`clear()`. -/
inductive RagOp where
  | add (texts : List String) (metadata : Option (List MetaMap))
  | clear
deriving Repr

/-- Run one operation on a `FAISSRetriever`. -/
def FAISSRetriever.step (e : Embedder) (r : FAISSRetriever) :
    RagOp → FAISSRetriever
  | .add texts metadata => r.add_documents e texts metadata
  | .clear => r.clear

/-- The `FAISSRetriever` state after a call sequence on a fresh instance. -/
def FAISSRetriever.exec (e : Embedder) (ops : List RagOp) : FAISSRetriever :=
  ops.foldl (FAISSRetriever.step e) FAISSRetriever.init

/-- Run one operation on a `SimpleRetriever`. -/
def SimpleRetriever.step (e : Embedder) (r : SimpleRetriever) :
    RagOp → SimpleRetriever
  | .add texts metadata => r.add_documents e texts metadata
  | .clear => r.clear

/-- The `SimpleRetriever` state after a call sequence on a fresh instance. -/
def SimpleRetriever.exec (e : Embedder) (ops : List RagOp) : SimpleRetriever :=
  ops.foldl (SimpleRetriever.step e) SimpleRetriever.init

/-! ## C10, C3, C5 -/

/-- C10: `embed_documents` applied to an empty list returns a matrix of shape
`(0, dimension)` — zero rows and exactly `dimension` columns — rather than
raising or returning a shapeless empty array (the `Embedder` value models a
successfully loaded primary-or-fallback model, which is what lazy dimension
resolution requires). -/
theorem embed_documents_empty_shape (e : Embedder) :
    (e.embed_documents []).rows.length = 0 ∧
    (e.embed_documents []).ncols = e.dimension := by
  constructor <;> rfl

/-- C3: `retrieve(query, k)` on an empty or uninitialized index — freshly
constructed, or after any number of `clear()` calls (before any
`add_documents`, or twice in a row) — returns the empty list and never
raises (the early-return guards fire before any faiss/numpy call, so the
result is `some []` in the FAISS model, where `none` would be a raised
exception, and `[]` in the fallback, whose retrieval path is total);
`clear()` always leaves the index holding zero documents and zero vectors,
in both implementations. -/
theorem retrieve_empty_and_clear (e : Embedder) (query : String) (k : Nat)
    (fr : FAISSRetriever) (sr : SimpleRetriever) :
    FAISSRetriever.retrieve e FAISSRetriever.init query k = some [] ∧
    SimpleRetriever.retrieve e SimpleRetriever.init query k = [] ∧
    FAISSRetriever.retrieve e fr.clear query k = some [] ∧
    SimpleRetriever.retrieve e sr.clear query k = [] ∧
    fr.clear.documents = [] ∧ fr.clear.ntotal = 0 ∧ fr.clear.index = none ∧
    sr.clear.documents = [] ∧ sr.clear.ntotal = 0 ∧
    sr.clear.embeddings = none ∧
    fr.clear.clear = fr.clear ∧ sr.clear.clear = sr.clear := by
  refine ⟨rfl, rfl, rfl, rfl, rfl, rfl, rfl, rfl, rfl, rfl, rfl, rfl⟩

theorem newDocs_length (texts : List String)
    (metadata : Option (List MetaMap)) :
    (newDocs texts metadata).length = texts.length := by
  simp [newDocs, List.enum_length]

theorem newDocs_getD (texts : List String)
    (metadata : Option (List MetaMap)) (i : Nat) (hi : i < texts.length) :
    (newDocs texts metadata).getD i ⟨"", []⟩ =
      ⟨texts.getD i "", pyMetaAt metadata i⟩ := by
  have hlen : i < (newDocs texts metadata).length := by
    rw [newDocs_length]; exact hi
  have hlen2 : i < texts.enum.length := by simpa [List.enum_length] using hi
  rw [List.getD_eq_getElem _ _ hlen, List.getD_eq_getElem _ _ hi]
  show (texts.enum.map (fun p => Document.mk p.2 (pyMetaAt metadata p.1)))[i] = _
  rw [List.getElem_map, List.getElem_enum]

/-- C5: `add_documents(texts, metadata)` with an empty `texts` list changes
no state and does not raise; with a non-empty list it appends exactly one
`Document` per input text, in input order, whose metadata is the
corresponding entry of the metadata list, or an empty mapping when metadata
is absent or shorter than the texts list — in both implementations. -/
theorem add_documents_appends (e : Embedder) (fr : FAISSRetriever)
    (sr : SimpleRetriever) (texts : List String)
    (metadata : Option (List MetaMap)) :
    (FAISSRetriever.add_documents e fr [] metadata = fr) ∧
    (SimpleRetriever.add_documents e sr [] metadata = sr) ∧
    ((fr.add_documents e texts metadata).documents.length =
        fr.documents.length + texts.length) ∧
    ((sr.add_documents e texts metadata).documents.length =
        sr.documents.length + texts.length) ∧
    (∀ i, i < texts.length →
      (fr.add_documents e texts metadata).documents.getD
          (fr.documents.length + i) ⟨"", []⟩ =
        ⟨texts.getD i "", pyMetaAt metadata i⟩) ∧
    (∀ i, i < texts.length →
      (sr.add_documents e texts metadata).documents.getD
          (sr.documents.length + i) ⟨"", []⟩ =
        ⟨texts.getD i "", pyMetaAt metadata i⟩) := by
  have hne : ∀ (docs : List Document), texts ≠ [] →
      (docs ++ newDocs texts metadata).length = docs.length + texts.length :=
    fun docs _ => by simp [newDocs_length]
  have hget : ∀ (docs : List Document) (i : Nat), i < texts.length →
      (docs ++ newDocs texts metadata).getD (docs.length + i) ⟨"", []⟩ =
        ⟨texts.getD i "", pyMetaAt metadata i⟩ := by
    intro docs i hi
    rw [List.getD_append_right docs (newDocs texts metadata) ⟨"", []⟩
      (docs.length + i) (by omega)]
    have harith : docs.length + i - docs.length = i := by omega
    rw [harith, newDocs_getD texts metadata i hi]
  refine ⟨by simp [FAISSRetriever.add_documents],
          by simp [SimpleRetriever.add_documents], ?_, ?_, ?_, ?_⟩
  · by_cases h : texts = []
    · subst h; simp [FAISSRetriever.add_documents]
    · simp only [FAISSRetriever.add_documents, if_neg h]
      exact hne fr.documents h
  · by_cases h : texts = []
    · subst h; simp [SimpleRetriever.add_documents]
    · simp only [SimpleRetriever.add_documents, if_neg h]
      exact hne sr.documents h
  · intro i hi
    have h : texts ≠ [] := by
      intro he; subst he; simp at hi
    simp only [FAISSRetriever.add_documents, if_neg h]
    exact hget fr.documents i hi
  · intro i hi
    have h : texts ≠ [] := by
      intro he; subst he; simp at hi
    simp only [SimpleRetriever.add_documents, if_neg h]
    exact hget sr.documents i hi

theorem add_documents_appends_witness :
    (1 < 2 ∧
      ((FAISSRetriever.init.add_documents ⟨1, fun t => [(t.length : Int)],
          fun t => [1]⟩ ["aa", "b"] (some [[("src", "f.txt")]])).documents.getD
        (0 + 1) ⟨"", []⟩ = ⟨"b", []⟩)) ∧
    (1 < 2 ∧
      ((SimpleRetriever.init.add_documents ⟨1, fun t => [(t.length : Int)],
          fun t => [1]⟩ ["aa", "b"] (some [[("src", "f.txt")]])).documents.getD
        (0 + 1) ⟨"", []⟩ = ⟨"b", []⟩)) :=
  ⟨⟨by decide,
    (add_documents_appends ⟨1, fun t => [(t.length : Int)], fun t => [1]⟩
      FAISSRetriever.init SimpleRetriever.init ["aa", "b"]
      (some [[("src", "f.txt")]])).2.2.2.2.1 1 (by decide)⟩,
   ⟨by decide,
    (add_documents_appends ⟨1, fun t => [(t.length : Int)], fun t => [1]⟩
      FAISSRetriever.init SimpleRetriever.init ["aa", "b"]
      (some [[("src", "f.txt")]])).2.2.2.2.2 1 (by decide)⟩⟩

/-! ## C6: document-list / vector-store alignment -/

theorem newDocs_map_text (texts : List String)
    (metadata : Option (List MetaMap)) :
    (newDocs texts metadata).map Document.text = texts := by
  simp only [newDocs, List.map_map]
  have hcomp : (Document.text ∘
      fun p : Nat × String => Document.mk p.2 (pyMetaAt metadata p.1)) =
      Prod.snd := rfl
  rw [hcomp, List.enum_map_snd]

theorem newDocs_map_embed (e : Embedder) (texts : List String)
    (metadata : Option (List MetaMap)) :
    (newDocs texts metadata).map (fun d => e.embedFn d.text) =
      texts.map e.embedFn := by
  have h1 : (newDocs texts metadata).map (fun d => e.embedFn d.text) =
      ((newDocs texts metadata).map Document.text).map e.embedFn := by
    rw [List.map_map]; rfl
  rw [h1, newDocs_map_text]

/-- Alignment invariant of a `FAISSRetriever`: the stored vectors are exactly
the embeddings of the stored documents, row `i` for document `i`. -/
def FAISSAligned (e : Embedder) (r : FAISSRetriever) : Prop :=
  r.index.getD [] = r.documents.map (fun d => e.embedFn d.text)

/-- Alignment invariant of a `SimpleRetriever`: the mock counter matches the
document count and the matrix rows are the embeddings of the documents. -/
def SimpleAligned (e : Embedder) (r : SimpleRetriever) : Prop :=
  r.ntotal = r.documents.length ∧
  r.embeddings.getD [] = r.documents.map (fun d => e.embedFn d.text)

theorem faissAligned_step (e : Embedder) (r : FAISSRetriever) (op : RagOp)
    (h : FAISSAligned e r) : FAISSAligned e (r.step e op) := by
  cases op with
  | add texts metadata =>
      by_cases ht : texts = []
      · subst ht
        simpa [FAISSRetriever.step, FAISSRetriever.add_documents] using h
      · unfold FAISSAligned at h ⊢
        simp only [FAISSRetriever.step, FAISSRetriever.add_documents,
          if_neg ht, Option.getD_some, List.map_append]
        rw [← h, newDocs_map_embed]
  | clear =>
      simp [FAISSRetriever.step, FAISSRetriever.clear, FAISSAligned]

theorem simpleAligned_step (e : Embedder) (r : SimpleRetriever) (op : RagOp)
    (h : SimpleAligned e r) : SimpleAligned e (r.step e op) := by
  cases op with
  | add texts metadata =>
      by_cases ht : texts = []
      · subst ht
        simpa [SimpleRetriever.step, SimpleRetriever.add_documents] using h
      · obtain ⟨h1, h2⟩ := h
        constructor
        · simp [SimpleRetriever.step, SimpleRetriever.add_documents, if_neg ht]
        · simp only [SimpleRetriever.step, SimpleRetriever.add_documents,
            if_neg ht, Option.getD_some, List.map_append]
          cases he : r.embeddings with
          | none =>
              rw [he] at h2
              simp only [Option.getD_none] at h2
              simp [← h2, newDocs_map_embed]
          | some m =>
              rw [he] at h2
              simp only [Option.getD_some] at h2
              simp [← h2, newDocs_map_embed]
  | clear =>
      simp [SimpleRetriever.step, SimpleRetriever.clear, SimpleAligned]

theorem faissAligned_exec (e : Embedder) (ops : List RagOp) :
    FAISSAligned e (FAISSRetriever.exec e ops) := by
  have hgen : ∀ (l : List RagOp) (r : FAISSRetriever), FAISSAligned e r →
      FAISSAligned e (l.foldl (FAISSRetriever.step e) r) := by
    intro l
    induction l with
    | nil => intro r h; exact h
    | cons op l ih =>
        intro r h
        exact ih _ (faissAligned_step e r op h)
  exact hgen ops FAISSRetriever.init (by simp [FAISSAligned, FAISSRetriever.init])

theorem simpleAligned_exec (e : Embedder) (ops : List RagOp) :
    SimpleAligned e (SimpleRetriever.exec e ops) := by
  have hgen : ∀ (l : List RagOp) (r : SimpleRetriever), SimpleAligned e r →
      SimpleAligned e (l.foldl (SimpleRetriever.step e) r) := by
    intro l
    induction l with
    | nil => intro r h; exact h
    | cons op l ih =>
        intro r h
        exact ih _ (simpleAligned_step e r op h)
  exact hgen ops SimpleRetriever.init
    (by constructor <;> simp [SimpleRetriever.init])

/-- C6: After every sequence of `add_documents` and `clear` operations on a
retriever, `len(documents)` equals the number of stored vectors (the index
`ntotal`, respectively the row count of the fallback embedding
matrix), and the `Document` at position `i` corresponds to the vector at row
`i` (row `i` is exactly the embedding of the text of document `i`) — stated by
the row-list/document-list map equality, which pins down both the count and
every position. -/
theorem documents_vectors_aligned (e : Embedder) (ops : List RagOp) :
    ((FAISSRetriever.exec e ops).documents.length =
      (FAISSRetriever.exec e ops).ntotal) ∧
    ((FAISSRetriever.exec e ops).index.getD [] =
      (FAISSRetriever.exec e ops).documents.map (fun d => e.embedFn d.text)) ∧
    ((SimpleRetriever.exec e ops).documents.length =
      (SimpleRetriever.exec e ops).ntotal) ∧
    ((SimpleRetriever.exec e ops).embeddings.getD [] =
      (SimpleRetriever.exec e ops).documents.map (fun d => e.embedFn d.text)) ∧
    ((SimpleRetriever.exec e ops).embeddings.getD [] |>.length) =
      (SimpleRetriever.exec e ops).documents.length := by
  have hf := faissAligned_exec e ops
  have hs := simpleAligned_exec e ops
  unfold FAISSAligned at hf
  obtain ⟨hs1, hs2⟩ := hs
  refine ⟨?_, hf, hs1.symm, hs2, ?_⟩
  · unfold FAISSRetriever.ntotal
    rw [hf, List.length_map]
  · rw [hs2, List.length_map]

/-! ## FAISS / Simple state correspondence under the same call sequence -/

theorem exec_state_eq (e : Embedder) (ops : List RagOp) :
    (FAISSRetriever.exec e ops).documents =
      (SimpleRetriever.exec e ops).documents ∧
    (FAISSRetriever.exec e ops).index =
      (SimpleRetriever.exec e ops).embeddings := by
  have hgen : ∀ (l : List RagOp) (fr : FAISSRetriever) (sr : SimpleRetriever),
      fr.documents = sr.documents → fr.index = sr.embeddings →
      (l.foldl (FAISSRetriever.step e) fr).documents =
        (l.foldl (SimpleRetriever.step e) sr).documents ∧
      (l.foldl (FAISSRetriever.step e) fr).index =
        (l.foldl (SimpleRetriever.step e) sr).embeddings := by
    intro l
    induction l with
    | nil => intro fr sr h1 h2; exact ⟨h1, h2⟩
    | cons op l ih =>
        intro fr sr h1 h2
        refine ih _ _ ?_ ?_
        · cases op with
          | add texts metadata =>
              by_cases ht : texts = [] <;>
                simp [FAISSRetriever.step, SimpleRetriever.step,
                  FAISSRetriever.add_documents, SimpleRetriever.add_documents,
                  ht, h1]
          | clear =>
              simp [FAISSRetriever.step, SimpleRetriever.step,
                FAISSRetriever.clear, SimpleRetriever.clear]
        · cases op with
          | add texts metadata =>
              by_cases ht : texts = []
              · simp [FAISSRetriever.step, SimpleRetriever.step,
                  FAISSRetriever.add_documents, SimpleRetriever.add_documents,
                  ht, h2]
              · cases he : sr.embeddings with
                | none =>
                    simp [FAISSRetriever.step, SimpleRetriever.step,
                      FAISSRetriever.add_documents,
                      SimpleRetriever.add_documents, ht, h2, he]
                | some m =>
                    simp [FAISSRetriever.step, SimpleRetriever.step,
                      FAISSRetriever.add_documents,
                      SimpleRetriever.add_documents, ht, h2, he]
          | clear =>
              simp [FAISSRetriever.step, SimpleRetriever.step,
                FAISSRetriever.clear, SimpleRetriever.clear]
  exact hgen ops FAISSRetriever.init SimpleRetriever.init rfl rfl

/-! ## Order facts for the two top-k selections -/

instance (sims : List Int) : IsTotal Nat (faissLt sims) :=
  ⟨by intro i j; unfold faissLt; omega⟩

instance (sims : List Int) : IsTrans Nat (faissLt sims) :=
  ⟨by intro i j k; unfold faissLt; omega⟩

instance (sims : List Int) : IsAntisymm Nat (faissLt sims) :=
  ⟨by intro i j; unfold faissLt; omega⟩

instance (xs : List Int) : IsTotal Nat (argsortLe xs) :=
  ⟨by intro i j; unfold argsortLe; omega⟩

instance (xs : List Int) : IsTrans Nat (argsortLe xs) :=
  ⟨by intro i j k; unfold argsortLe; omega⟩

instance (xs : List Int) : IsAntisymm Nat (argsortLe xs) :=
  ⟨by intro i j; unfold argsortLe; omega⟩

theorem argsort_length (xs : List Int) : (argsort xs).length = xs.length := by
  unfold argsort
  rw [List.length_insertionSort, List.length_range]

theorem argsort_perm (xs : List Int) :
    List.Perm (argsort xs) (List.range xs.length) :=
  List.perm_insertionSort _ _

/-- When all scores are pairwise distinct, reversing the ascending argsort
order gives exactly the faiss descending order. -/
theorem argsort_reverse_eq_faissOrder (xs : List Int)
    (hdist : ∀ i, i < xs.length → ∀ j, j < xs.length →
      xs.getD i 0 = xs.getD j 0 → i = j) :
    (argsort xs).reverse =
      List.insertionSort (faissLt xs) (List.range xs.length) := by
  have hperm : List.Perm (argsort xs) (List.range xs.length) := argsort_perm xs
  have hsortedAsc : List.Sorted (argsortLe xs) (argsort xs) :=
    List.sorted_insertionSort _ _
  have hnodup : (argsort xs).Nodup :=
    hperm.symm.nodup (List.nodup_range xs.length)
  have hrevnodup : (argsort xs).reverse.Nodup := List.nodup_reverse.mpr hnodup
  have hmem : ∀ a ∈ (argsort xs).reverse, a < xs.length := by
    intro a ha
    have h1 : a ∈ argsort xs := List.mem_reverse.mp ha
    have h2 : a ∈ List.range xs.length := hperm.mem_iff.mp h1
    simpa [List.mem_range] using h2
  have hrevpair : (argsort xs).reverse.Pairwise
      (fun a b => argsortLe xs b a) := by
    rw [List.pairwise_reverse]
    simpa using hsortedAsc
  have hcomb : (argsort xs).reverse.Pairwise
      (fun a b => argsortLe xs b a ∧ a ≠ b) := hrevpair.and hrevnodup
  have hrevsorted : List.Sorted (faissLt xs) (argsort xs).reverse := by
    refine hcomb.imp_of_mem ?_
    intro a b ha hb hab
    obtain ⟨hle, hne⟩ := hab
    have hA := hmem a ha
    have hB := hmem b hb
    unfold argsortLe at hle
    unfold faissLt
    rcases hle with h | ⟨heq, hba⟩
    · left; exact h
    · exact absurd (hdist b hB a hA heq).symm hne
  have hsorted2 : List.Sorted (faissLt xs)
      (List.insertionSort (faissLt xs) (List.range xs.length)) :=
    List.sorted_insertionSort _ _
  have hperm2 : List.Perm (argsort xs).reverse
      (List.insertionSort (faissLt xs) (List.range xs.length)) :=
    ((List.reverse_perm _).trans hperm).trans
      (List.perm_insertionSort _ _).symm
  exact List.eq_of_perm_of_sorted hperm2 hrevsorted hsorted2

theorem faiss_keep_all (docs : List Document) (d : Document)
    (pl : List (Int × Int))
    (h : ∀ p ∈ pl, p.2 ≠ -1 ∧ p.2 < (docs.length : Int)) :
    (pl.filterMap (fun p =>
      if p.2 ≠ -1 ∧ p.2 < (docs.length : Int) then
        some (docs.getD p.2.toNat d, p.1)
      else none)) =
    pl.map (fun p => (docs.getD p.2.toNat d, p.1)) := by
  induction pl with
  | nil => rfl
  | cons a t ih =>
      have ha := h a (List.mem_cons_self a t)
      rw [List.filterMap_cons]
      simp only [if_pos ha]
      rw [ih (fun b hb => h b (List.mem_cons_of_mem a hb)), List.map_cons]

theorem faiss_retrieve_explicit (e : Embedder) (docs : List Document)
    (vecs : List (List Int)) (query : String) (k : Nat)
    (hlen : docs.length = vecs.length) (hvl : vecs.length ≠ 0)
    (hk : 1 ≤ k) :
    FAISSRetriever.retrieve e ⟨docs, some vecs⟩ query k =
      some (((List.insertionSort
          (faissLt (vecs.map (fun v => dot v (e.embedQueryFn query))))
          (List.range vecs.length)).take (min k vecs.length)).map
        (fun i => (docs.getD i ⟨"", []⟩,
          (vecs.map (fun v => dot v (e.embedQueryFn query))).getD i 0))) := by
  have hmin : ¬ (min k vecs.length = 0) := by omega
  unfold FAISSRetriever.retrieve faissSearch
  dsimp only
  rw [if_neg hvl, if_neg hmin]
  dsimp only
  refine congrArg some ?_
  set sims := vecs.map (fun v => dot v (e.embedQueryFn query)) with hsims
  set ord := List.insertionSort (faissLt sims) (List.range vecs.length)
    with hord
  have hmemtake : ∀ i ∈ ord.take (min k vecs.length), i < vecs.length := by
    intro i hi
    have h1 : i ∈ ord := List.mem_of_mem_take hi
    have h2 : i ∈ List.range vecs.length := by
      rw [hord] at h1
      exact (List.perm_insertionSort _ _).mem_iff.mp h1
    simpa [List.mem_range] using h2
  have hmempairs : ∀ p ∈ (ord.take (min k vecs.length)).map
      (fun i => (sims.getD i 0, (i : Int))),
      p.2 ≠ -1 ∧ p.2 < (docs.length : Int) := by
    intro p hp
    obtain ⟨i, hi, rfl⟩ := List.mem_map.mp hp
    have hiv : i < vecs.length := hmemtake i hi
    constructor
    · dsimp only
      omega
    · dsimp only
      rw [hlen]
      exact_mod_cast hiv
  rw [faiss_keep_all docs ⟨"", []⟩ _ hmempairs, List.map_map]
  refine List.map_congr_left ?_
  intro i hi
  simp [Function.comp]

theorem simple_retrieve_explicit (e : Embedder) (docs : List Document)
    (nt : Nat) (vecs : List (List Int)) (query : String) (k : Nat)
    (hd : docs.length ≠ 0) :
    SimpleRetriever.retrieve e ⟨docs, nt, some vecs⟩ query k =
      ((pySliceLastK
          (argsort (vecs.map (fun v => dot v (e.embedQueryFn query))))
          (min k docs.length)).reverse).map
        (fun i => (docs.getD i ⟨"", []⟩,
          (vecs.map (fun v => dot v (e.embedQueryFn query))).getD i 0)) := by
  unfold SimpleRetriever.retrieve
  dsimp only
  rw [if_neg hd]

theorem faiss_retrieve_no_raise (e : Embedder) (docs : List Document)
    (vecs : List (List Int)) (query : String) (k : Nat)
    (hlen : docs.length = vecs.length) (hvl : vecs.length ≠ 0)
    (hk : 1 ≤ k) :
    FAISSRetriever.retrieve e ⟨docs, some vecs⟩ query k ≠ none := by
  rw [faiss_retrieve_explicit e docs vecs query k hlen hvl hk]
  exact Option.some_ne_none _

theorem faiss_retrieve_length (e : Embedder) (docs : List Document)
    (vecs : List (List Int)) (query : String) (k : Nat)
    (hlen : docs.length = vecs.length) (hvl : vecs.length ≠ 0)
    (hk : 1 ≤ k) :
    ((FAISSRetriever.retrieve e ⟨docs, some vecs⟩ query k).getD []).length =
      min k docs.length := by
  rw [faiss_retrieve_explicit e docs vecs query k hlen hvl hk]
  rw [Option.getD_some, List.length_map, List.length_take,
    List.length_insertionSort, List.length_range, hlen]
  omega

theorem faiss_retrieve_sorted (e : Embedder) (docs : List Document)
    (vecs : List (List Int)) (query : String) (k : Nat)
    (hlen : docs.length = vecs.length) (hvl : vecs.length ≠ 0)
    (hk : 1 ≤ k) :
    List.Sorted (fun a b : Document × Int => b.2 ≤ a.2)
      ((FAISSRetriever.retrieve e ⟨docs, some vecs⟩ query k).getD []) := by
  rw [faiss_retrieve_explicit e docs vecs query k hlen hvl hk,
    Option.getD_some]
  set sims := vecs.map (fun v => dot v (e.embedQueryFn query)) with hsims
  have hsorted : List.Sorted (faissLt sims)
      (List.insertionSort (faissLt sims) (List.range vecs.length)) :=
    List.sorted_insertionSort _ _
  have htake : (List.insertionSort (faissLt sims)
      (List.range vecs.length)).take (min k vecs.length)
      |>.Pairwise (faissLt sims) :=
    hsorted.sublist (List.take_sublist _ _)
  rw [List.Sorted, List.pairwise_map]
  refine htake.imp ?_
  intro i j hij
  unfold faissLt at hij
  dsimp only
  omega

theorem simple_retrieve_length (e : Embedder) (docs : List Document)
    (nt : Nat) (vecs : List (List Int)) (query : String) (k : Nat)
    (hlen : docs.length = vecs.length) (hd : docs.length ≠ 0)
    (hk : 1 ≤ k) :
    (SimpleRetriever.retrieve e ⟨docs, nt, some vecs⟩ query k).length =
      min k docs.length := by
  rw [simple_retrieve_explicit e docs nt vecs query k hd]
  have hkk : min k docs.length ≠ 0 := by omega
  rw [List.length_map, List.length_reverse, pySliceLastK, if_neg hkk,
    List.length_drop, argsort_length, List.length_map, ← hlen]
  omega

theorem simple_retrieve_sorted (e : Embedder) (docs : List Document)
    (nt : Nat) (vecs : List (List Int)) (query : String) (k : Nat)
    (hd : docs.length ≠ 0) :
    List.Sorted (fun a b : Document × Int => b.2 ≤ a.2)
      (SimpleRetriever.retrieve e ⟨docs, nt, some vecs⟩ query k) := by
  rw [simple_retrieve_explicit e docs nt vecs query k hd]
  set sims := vecs.map (fun v => dot v (e.embedQueryFn query)) with hsims
  have hsorted : List.Sorted (argsortLe sims) (argsort sims) :=
    List.sorted_insertionSort _ _
  have hslice : (pySliceLastK (argsort sims) (min k docs.length)).Pairwise
      (argsortLe sims) := by
    unfold pySliceLastK
    split
    · exact hsorted
    · exact hsorted.sublist (List.drop_sublist _ _)
  have hrev : (pySliceLastK (argsort sims) (min k docs.length)).reverse.Pairwise
      (fun a b => argsortLe sims b a) := by
    rw [List.pairwise_reverse]
    simpa using hslice
  rw [List.Sorted, List.pairwise_map]
  refine hrev.imp ?_
  intro i j hij
  unfold argsortLe at hij
  dsimp only
  omega

/-- C2 (amended): For every index state holding `n ≥ 1` aligned documents
and vectors and every `k ≥ 1`, both retrievers return exactly `min(k, n)`
`(Document, score)` pairs ordered by descending score (the FAISS-backed one
without raising — its result is `some` of such a list).  At `k = 0` neither
backend satisfies the original claim: faiss `IndexFlat::search` asserts
`k > 0`, so the FAISS-backed `retrieve` raises on a non-empty index, and the
plain-similarity `argsort[-0:]` slice keeps the whole array, returning all
`n` pairs — see the counterexample. -/
theorem retrieve_topk_count_and_order (e : Embedder) (query : String)
    (docs : List Document) (vecs : List (List Int)) (nt k : Nat)
    (hlen : docs.length = vecs.length) (hpos : 1 ≤ docs.length)
    (hk : 1 ≤ k) :
    (FAISSRetriever.retrieve e ⟨docs, some vecs⟩ query k ≠ none ∧
      ((FAISSRetriever.retrieve e ⟨docs, some vecs⟩ query k).getD []).length =
        min k docs.length ∧
      List.Sorted (fun a b : Document × Int => b.2 ≤ a.2)
        ((FAISSRetriever.retrieve e ⟨docs, some vecs⟩ query k).getD [])) ∧
    ((SimpleRetriever.retrieve e ⟨docs, nt, some vecs⟩ query k).length =
        min k docs.length ∧
      List.Sorted (fun a b : Document × Int => b.2 ≤ a.2)
        (SimpleRetriever.retrieve e ⟨docs, nt, some vecs⟩ query k)) := by
  have hvl : vecs.length ≠ 0 := by omega
  have hd : docs.length ≠ 0 := by omega
  exact ⟨⟨faiss_retrieve_no_raise e docs vecs query k hlen hvl hk,
          faiss_retrieve_length e docs vecs query k hlen hvl hk,
          faiss_retrieve_sorted e docs vecs query k hlen hvl hk⟩,
         simple_retrieve_length e docs nt vecs query k hlen hd hk,
         simple_retrieve_sorted e docs nt vecs query k hd⟩

/-- Concrete embedder for witnesses and counterexamples: a document embeds to
the one-component vector holding its length, a query to `[1]`, so the score
of a document is its length. -/
def lenEmbedder : Embedder :=
  ⟨1, fun t => [(t.length : Int)], fun t => [1]⟩

theorem retrieve_topk_count_and_order_witness :
    (([⟨"ab", []⟩, ⟨"c", []⟩] : List Document).length =
        ([[2], [1]] : List (List Int)).length ∧
      1 ≤ ([⟨"ab", []⟩, ⟨"c", []⟩] : List Document).length ∧ 1 ≤ 5) ∧
    ((FAISSRetriever.retrieve lenEmbedder ⟨[⟨"ab", []⟩, ⟨"c", []⟩],
          some [[2], [1]]⟩ "q" 5 ≠ none ∧
      ((FAISSRetriever.retrieve lenEmbedder ⟨[⟨"ab", []⟩, ⟨"c", []⟩],
          some [[2], [1]]⟩ "q" 5).getD []).length = min 5 2 ∧
      List.Sorted (fun a b : Document × Int => b.2 ≤ a.2)
        ((FAISSRetriever.retrieve lenEmbedder ⟨[⟨"ab", []⟩, ⟨"c", []⟩],
          some [[2], [1]]⟩ "q" 5).getD [])) ∧
     ((SimpleRetriever.retrieve lenEmbedder ⟨[⟨"ab", []⟩, ⟨"c", []⟩], 2,
          some [[2], [1]]⟩ "q" 5).length = min 5 2 ∧
        List.Sorted (fun a b : Document × Int => b.2 ≤ a.2)
          (SimpleRetriever.retrieve lenEmbedder ⟨[⟨"ab", []⟩, ⟨"c", []⟩], 2,
            some [[2], [1]]⟩ "q" 5))) :=
  ⟨by decide,
   retrieve_topk_count_and_order lenEmbedder "q" [⟨"ab", []⟩, ⟨"c", []⟩]
     [[2], [1]] 2 5 (by decide) (by decide) (by decide)⟩

/-- C2 counterexample at `k = 0` on an index holding exactly one document:
the plain-similarity retriever returns 1 pair, not `min(0, 1) = 0`
(`np.argsort(sims)[-0:]` is the whole array, so every stored document is
returned), and the FAISS-backed retriever raises (`IndexFlat::search`
asserts `k > 0`; the raised call is the `none` of the model) instead of
returning 0 pairs. -/
theorem simple_retrieve_k0_counterexample :
    (SimpleRetriever.retrieve lenEmbedder
      (SimpleRetriever.init.add_documents lenEmbedder ["hello"] none)
      "q" 0).length = 1 ∧
    min 0 (SimpleRetriever.init.add_documents lenEmbedder ["hello"]
      none).documents.length = 0 ∧
    FAISSRetriever.retrieve lenEmbedder
      (FAISSRetriever.init.add_documents lenEmbedder ["hello"] none)
      "q" 0 = none := by
  refine ⟨by decide, by decide, by decide⟩

/-- The inner-product scores of stored vectors against the embedded query —
the `similarities` array both retrievers rank by. -/
def simScores (e : Embedder) (vecs : List (List Int)) (query : String) :
    List Int :=
  vecs.map (fun v => dot v (e.embedQueryFn query))

/-- No two stored vectors score equally against the query (no ties). -/
abbrev PairwiseDistinct (xs : List Int) : Prop :=
  ∀ i, i < xs.length → ∀ j, j < xs.length →
    xs.getD i 0 = xs.getD j 0 → i = j

theorem retrieve_equiv_core (e : Embedder) (query : String) (k : Nat)
    (docs : List Document) (nt : Nat) (vecs : List (List Int))
    (hlen : docs.length = vecs.length) (hk : 1 ≤ k)
    (hdist : PairwiseDistinct (simScores e vecs query)) :
    FAISSRetriever.retrieve e ⟨docs, some vecs⟩ query k =
      some (SimpleRetriever.retrieve e ⟨docs, nt, some vecs⟩ query k) := by
  by_cases hvl : vecs.length = 0
  · have hd : docs.length = 0 := by omega
    unfold FAISSRetriever.retrieve SimpleRetriever.retrieve
    dsimp only
    rw [if_pos hvl, if_pos hd]
  · have hd : docs.length ≠ 0 := by omega
    rw [faiss_retrieve_explicit e docs vecs query k hlen hvl hk,
        simple_retrieve_explicit e docs nt vecs query k hd]
    refine congrArg some ?_
    have hsl : (vecs.map (fun v => dot v (e.embedQueryFn query))).length
        = vecs.length := List.length_map _ _
    have hkk : min k docs.length ≠ 0 := by omega
    have harith : (argsort
        (vecs.map (fun v => dot v (e.embedQueryFn query)))).length -
        ((argsort (vecs.map (fun v => dot v (e.embedQueryFn query)))).length -
          min k docs.length) = min k docs.length := by
      rw [argsort_length, hsl]; omega
    have hdist2 : PairwiseDistinct
        (vecs.map (fun v => dot v (e.embedQueryFn query))) := hdist
    congr 1
    rw [pySliceLastK, if_neg hkk, List.reverse_drop, harith,
      argsort_reverse_eq_faissOrder _ hdist2, hsl, hlen]

/-- C4 (amended): Given the same embedder (hence the same embeddings), the
same sequence of `add_documents`/`clear` calls in the same order, the same
query and the same `k ≥ 1`, and PROVIDED all similarity scores are pairwise
distinct (no ties), the FAISS-backed retriever and the plain-similarity
retriever return literally the same `(Document, score)` list — same
documents, same scores, same order (scores are exactly equal in this
exact-arithmetic model; "floating-point tolerance" has no residue here); in
particular the FAISS call does not raise (its result is `some` of the
fallback result).  With ties the document sets can differ — see the
counterexample. -/
theorem faiss_simple_equivalent (e : Embedder) (ops : List RagOp)
    (query : String) (k : Nat) (hk : 1 ≤ k)
    (hdist : PairwiseDistinct (simScores e
      ((SimpleRetriever.exec e ops).embeddings.getD []) query)) :
    FAISSRetriever.retrieve e (FAISSRetriever.exec e ops) query k =
      some (SimpleRetriever.retrieve e (SimpleRetriever.exec e ops)
        query k) := by
  obtain ⟨hdocs, hidx⟩ := exec_state_eq e ops
  obtain ⟨hnt, hemb⟩ := simpleAligned_exec e ops
  have hFeta : FAISSRetriever.exec e ops =
      (⟨(SimpleRetriever.exec e ops).documents,
        (SimpleRetriever.exec e ops).embeddings⟩ : FAISSRetriever) := by
    have h1 : FAISSRetriever.exec e ops =
        ⟨(FAISSRetriever.exec e ops).documents,
          (FAISSRetriever.exec e ops).index⟩ := rfl
    rw [h1, hdocs, hidx]
  have hSeta : SimpleRetriever.exec e ops =
      (⟨(SimpleRetriever.exec e ops).documents,
        (SimpleRetriever.exec e ops).ntotal,
        (SimpleRetriever.exec e ops).embeddings⟩ : SimpleRetriever) := rfl
  rw [hFeta, hSeta]
  cases hie : (SimpleRetriever.exec e ops).embeddings with
  | none => rfl
  | some vecs =>
      have hlen : (SimpleRetriever.exec e ops).documents.length =
          vecs.length := by
        rw [hie] at hemb
        simp only [Option.getD_some] at hemb
        rw [hemb, List.length_map]
      rw [hie] at hdist
      simp only [Option.getD_some] at hdist
      exact retrieve_equiv_core e query k
        (SimpleRetriever.exec e ops).documents
        (SimpleRetriever.exec e ops).ntotal vecs hlen hk hdist

theorem faiss_simple_equivalent_witness :
    (1 ≤ 1 ∧ PairwiseDistinct (simScores lenEmbedder
      ((SimpleRetriever.exec lenEmbedder
        [.add ["a", "bb"] none]).embeddings.getD []) "q")) ∧
    FAISSRetriever.retrieve lenEmbedder
        (FAISSRetriever.exec lenEmbedder [.add ["a", "bb"] none]) "q" 1 =
      some (SimpleRetriever.retrieve lenEmbedder
        (SimpleRetriever.exec lenEmbedder [.add ["a", "bb"] none]) "q" 1) :=
  ⟨⟨by decide, by decide⟩,
   faiss_simple_equivalent lenEmbedder [.add ["a", "bb"] none] "q" 1
     (by decide) (by decide)⟩

/-- Embedder that maps every text to the same unit vector: every document
ties with every other on every query. -/
def constEmbedder : Embedder := ⟨1, fun t => [1], fun t => [1]⟩

/-- C4 counterexample: same embedder, same single `add_documents(["a","b"])`
call, same query, same `k = 1` — but the two documents tie (identical
embeddings), and the FAISS backend returns document `"a"` (faiss breaks ties
toward the lower id) while the plain-similarity backend returns `"b"`
(`argsort` leaves the later index last, and the `[-k:]` slice takes it): the
returned document sets differ, refuting the unconditional claim. -/
theorem faiss_simple_tie_counterexample :
    (Option.map (List.map (fun p : Document × Int => p.1.text))
      (FAISSRetriever.retrieve constEmbedder
        (FAISSRetriever.exec constEmbedder [.add ["a", "b"] none])
        "q" 1) = some ["a"]) ∧
    ((SimpleRetriever.retrieve constEmbedder
        (SimpleRetriever.exec constEmbedder [.add ["a", "b"] none])
        "q" 1).map (fun p => p.1.text) = ["b"]) := by
  constructor
  · decide
  · decide

/-! ## Extraction and process() (src/rag/document_processor.py:37-108) -/

/-- External collaborators of the extractor: `pdfExtract` models the pypdf
read-and-join-pages block (document_processor.py:77-89; `.error m` is any
exception with message `m` raised inside it), `detectEncoding` models
`chardet.detect(...)["encoding"]` (`none` for an inconclusive detection),
and `decodeBytes enc bs` models `bs.decode(enc, errors="replace")` — total,
because `errors="replace"` substitutes U+FFFD for undecodable bytes instead
of raising. -/
structure ExtractEnv where
  pdfExtract : List Nat → Except (List Char) (List Char)
  detectEncoding : List Nat → Option String
  decodeBytes : String → List Nat → List Char

/-- `PurePath.name`: the final path component, trailing slashes dropped. -/
def pathName (filename : List Char) : List Char :=
  let trimmed := (filename.reverse.dropWhile (fun c => c = '/')).reverse
  (trimmed.reverse.takeWhile (fun c => c ≠ '/')).reverse

/-- The index of the last `.` in a name (`str.rfind`). -/
def lastDotIdx (name : List Char) : Option Nat :=
  ((List.range name.length).filter
    (fun j => name.getD j '\x00' = '.')).getLast?

/-- `PurePath.suffix` as CPython computes it: `name[i:]` where `i` is the
last dot index, provided `0 < i < len(name) - 1`; otherwise empty (no dot, a
leading dot, or a trailing dot). -/
def pathSuffix (filename : List Char) : List Char :=
  let name := pathName filename
  match lastDotIdx name with
  | some i => if 0 < i ∧ i + 1 < name.length then name.drop i else []
  | none => []

/-- `_extract_text` (document_processor.py:94-108): detect the encoding
(`utf-8` when chardet is inconclusive) and decode with `errors="replace"` —
a total function, never an exception. -/
def extract_text (env : ExtractEnv) (file_bytes : List Nat) : List Char :=
  env.decodeBytes ((env.detectEncoding file_bytes).getD "utf-8") file_bytes

/-- `_extract_pdf` (document_processor.py:64-92): any exception from the
pypdf block is re-raised as `DocumentProcessingError` with the cause in the
message. -/
def extract_pdf (env : ExtractEnv) (file_bytes : List Nat) :
    Except (List Char) (List Char) :=
  match env.pdfExtract file_bytes with
  | .ok t => .ok t
  | .error m => .error ("PDF extraction failed: ".toList ++ m)

/-- Result of one `process` call: a raised `DocumentProcessingError`, a
chunk list, or a chunking loop still running after the fuel bound. -/
inductive ProcessOutcome where
  | error (msg : List Char)
  | timeout
  | ok (chunks : List (List Char))
deriving Repr, DecidableEq

/-- `DocumentProcessor.process` (document_processor.py:37-62): dispatch on
the lower-cased filename suffix, fail on unsupported extensions and on
empty-after-strip text, then chunk (the chunk loop runs under the `fuel`
bound; per C1 it never exits on text that passes the emptiness check). -/
def process (chunk_size : Nat) (env : ExtractEnv) (file_bytes : List Nat)
    (filename : List Char) (fuel : Nat) : ProcessOutcome :=
  let ext := (pathSuffix filename).map Char.toLower
  let extracted : Except (List Char) (List Char) :=
    if ext = ".pdf".toList then extract_pdf env file_bytes
    else if ext = ".txt".toList ∨ ext = ".md".toList ∨
        ext = ".text".toList then
      .ok (extract_text env file_bytes)
    else .error ("Unsupported file type: ".toList ++ ext)
  match extracted with
  | .error m => .error m
  | .ok text =>
    if pyStrip text = [] then .error ("No extractable text found.".toList)
    else
      match chunkTextFuel chunk_size text fuel with
      | some chunks => .ok chunks
      | none => .timeout

/-- C7: `process(file_bytes, filename)` raises `DocumentProcessingError`
when the lower-cased extension is not one of `.pdf`/`.txt`/`.md`/`.text`
(message naming the unsupported extension, independent of the bytes), when
the extracted text is empty or all-whitespace after stripping (every
supported type), and when PDF parsing fails; for `.txt`/`.md`/`.text` the
decoding step never raises — on non-empty stripped text no error at all is
produced. -/
theorem process_error_cases (chunk_size : Nat) (env : ExtractEnv)
    (file_bytes : List Nat) (filename : List Char) (fuel : Nat) :
    (((pathSuffix filename).map Char.toLower ≠ ".pdf".toList ∧
      (pathSuffix filename).map Char.toLower ≠ ".txt".toList ∧
      (pathSuffix filename).map Char.toLower ≠ ".md".toList ∧
      (pathSuffix filename).map Char.toLower ≠ ".text".toList) →
      process chunk_size env file_bytes filename fuel =
        .error ("Unsupported file type: ".toList ++
          (pathSuffix filename).map Char.toLower)) ∧
    (((pathSuffix filename).map Char.toLower = ".txt".toList ∨
      (pathSuffix filename).map Char.toLower = ".md".toList ∨
      (pathSuffix filename).map Char.toLower = ".text".toList) →
      (pyStrip (extract_text env file_bytes) = [] →
        process chunk_size env file_bytes filename fuel =
          .error ("No extractable text found.".toList)) ∧
      (pyStrip (extract_text env file_bytes) ≠ [] →
        ∀ m, process chunk_size env file_bytes filename fuel ≠ .error m)) ∧
    ((pathSuffix filename).map Char.toLower = ".pdf".toList →
      (∀ m, env.pdfExtract file_bytes = .error m →
        process chunk_size env file_bytes filename fuel =
          .error ("PDF extraction failed: ".toList ++ m)) ∧
      (∀ t, env.pdfExtract file_bytes = .ok t → pyStrip t = [] →
        process chunk_size env file_bytes filename fuel =
          .error ("No extractable text found.".toList))) := by
  refine ⟨?_, ?_, ?_⟩
  · intro ⟨h1, h2, h3, h4⟩
    have hcond : ¬((pathSuffix filename).map Char.toLower = ".txt".toList ∨
        (pathSuffix filename).map Char.toLower = ".md".toList ∨
        (pathSuffix filename).map Char.toLower = ".text".toList) := by
      intro hor
      rcases hor with h | h | h
      exacts [h2 h, h3 h, h4 h]
    unfold process
    simp only [if_neg h1, if_neg hcond]
  · intro hext
    have hnpdf : (pathSuffix filename).map Char.toLower ≠ ".pdf".toList := by
      rcases hext with h | h | h <;> rw [h] <;> decide
    constructor
    · intro hempty
      unfold process
      simp only [if_neg hnpdf, if_pos hext]
      rw [if_pos hempty]
    · intro hne m
      unfold process
      simp only [if_neg hnpdf, if_pos hext]
      rw [if_neg hne]
      cases chunkTextFuel chunk_size (extract_text env file_bytes) fuel with
      | none => exact fun hcontra => ProcessOutcome.noConfusion hcontra
      | some chunks => exact fun hcontra => ProcessOutcome.noConfusion hcontra
  · intro hpdf
    constructor
    · intro m hm
      unfold process
      simp only [if_pos hpdf]
      unfold extract_pdf
      rw [hm]
    · intro t ht hstrip
      unfold process
      simp only [if_pos hpdf]
      unfold extract_pdf
      rw [ht]
      dsimp only
      rw [if_pos hstrip]

/-- Concrete extraction environment for witnesses: pdf extraction succeeds
with the text `x`, encoding detection is inconclusive, decoding maps each
byte to the character with that code point. -/
def simpleEnv : ExtractEnv :=
  ⟨fun b => .ok ['x'], fun b => none, fun enc b => b.map Char.ofNat⟩

theorem process_error_cases_witness :
    (((pathSuffix "test.docx".toList).map Char.toLower ≠ ".pdf".toList ∧
      (pathSuffix "test.docx".toList).map Char.toLower ≠ ".txt".toList ∧
      (pathSuffix "test.docx".toList).map Char.toLower ≠ ".md".toList ∧
      (pathSuffix "test.docx".toList).map Char.toLower ≠ ".text".toList) ∧
     process 512 simpleEnv [] "test.docx".toList 9 =
       .error ("Unsupported file type: ".toList ++
         (pathSuffix "test.docx".toList).map Char.toLower)) ∧
    (((pathSuffix "a.txt".toList).map Char.toLower = ".txt".toList ∨
      (pathSuffix "a.txt".toList).map Char.toLower = ".md".toList ∨
      (pathSuffix "a.txt".toList).map Char.toLower = ".text".toList) ∧
     pyStrip (extract_text simpleEnv [32, 32]) = [] ∧
     process 512 simpleEnv [32, 32] "a.txt".toList 9 =
       .error ("No extractable text found.".toList)) :=
  ⟨⟨by decide,
    (process_error_cases 512 simpleEnv [] "test.docx".toList 9).1
      (by decide)⟩,
   ⟨by decide, by decide,
    ((process_error_cases 512 simpleEnv [32, 32] "a.txt".toList 9).2.1
      (by decide)).1 (by decide)⟩⟩

/-! ## RAG prompt augmentation (src/services/chat_service.py:295-353) -/

/-- Outcome of the `retriever.retrieve(content, k=k)` call inside the
orchestrator: a result list, or an exception escaping `retrieve`. -/
inductive RetrieveOutcome where
  | ok (results : List (Document × Int))
  | raised
deriving Repr, DecidableEq

/-- The retriever as `stream_message_with_rag` observes it (an external
collaborator reached only through `retriever.documents`,
`retriever.index.ntotal` and `retriever.retrieve`): the document list, the
`ntotal` of the index object when one exists, and what the `retrieve` call
for the current query does. -/
structure OrchestratorRetriever where
  documents : List Document
  indexNtotal : Option Nat
  retrieveOutcome : RetrieveOutcome
deriving Repr, DecidableEq

/-- The context block built at chat_service.py:245-246:
`"\n\n---\n".join(doc.text for doc, _ in results)`. -/
def contextText (results : List (Document × Int)) : String :=
  String.intercalate "\n\n---\n" (results.map (fun p => p.1.text))

/-- The `augmented_prompt` computation of `stream_message_with_rag`
(chat_service.py:224-262): starts as the `system_prompt` of the caller; inside a
`try` block, when the retriever reports documents and `retrieve` returns a
non-empty result list, the prompt is replaced by an augmented one (the
original followed by the context, or a default instruction when the
original is `None` or empty — Python truthiness); `except Exception` catches
anything `retrieve` raises and leaves the prompt unchanged.  The function
then delegates `yield from self.stream_message(..., system_prompt =
augmented_prompt)`, so this value is exactly the prompt handed downstream. -/
def augmentedPrompt (retriever : Option OrchestratorRetriever)
    (system_prompt : Option String) : Option String :=
  match retriever with
  | none => system_prompt
  | some r =>
    let has_docs : Bool := decide (0 < r.documents.length) ||
      (match r.indexNtotal with | some n => decide (0 < n) | none => false)
    if has_docs then
      match r.retrieveOutcome with
      | .raised => system_prompt
      | .ok results =>
        if results ≠ [] then
          some (match system_prompt with
            | some p =>
                if p ≠ "" then
                  p ++ "\n\n" ++
                    "Use the following context to answer the user\x27s question:\n\n"
                    ++ contextText results
                else
                  "You are a helpful assistant. Use the following context to answer the user\x27s question:\n\n"
                    ++ contextText results
            | none =>
                "You are a helpful assistant. Use the following context to answer the user\x27s question:\n\n"
                  ++ contextText results)
        else system_prompt
    else system_prompt

/-- C8: If, during `stream_message_with_rag`, `retrieve` raises any
exception or returns an empty list, the chat turn still proceeds: the
exception is caught (`except Exception` at chat_service.py:259) and the
prompt handed to the downstream streaming call equals the original
`system_prompt` of the caller, unchanged — no augmentation. -/
theorem rag_failure_keeps_prompt (r : OrchestratorRetriever)
    (system_prompt : Option String)
    (h : r.retrieveOutcome = .raised ∨ r.retrieveOutcome = .ok []) :
    augmentedPrompt (some r) system_prompt = system_prompt := by
  unfold augmentedPrompt
  dsimp only
  split
  · rcases h with h | h <;> rw [h]
    simp
  · rfl

theorem rag_failure_keeps_prompt_witness :
    ((OrchestratorRetriever.mk [⟨"doc", []⟩] (some 1)
        RetrieveOutcome.raised).retrieveOutcome = .raised ∨
      (OrchestratorRetriever.mk [⟨"doc", []⟩] (some 1)
        RetrieveOutcome.raised).retrieveOutcome = .ok []) ∧
    augmentedPrompt (some (OrchestratorRetriever.mk [⟨"doc", []⟩] (some 1)
      RetrieveOutcome.raised)) (some "You are concise.") =
      some "You are concise." :=
  ⟨by decide,
   rag_failure_keeps_prompt
     (OrchestratorRetriever.mk [⟨"doc", []⟩] (some 1)
       RetrieveOutcome.raised)
     (some "You are concise.") (by decide)⟩
